import Mathlib

/-!
Verification of the Dusky control-center asynchronous polling/update engine.

This file shallowly embeds the core of
`user_scripts/dusky_system/control_center/lib/rows.py` (command dispatch,
the per-slot polling engine, slider debounce, widget teardown) and of
`user_scripts/dusky_system/control_center_stable/lib/utility.py` (settings
persistence), and proves the specified properties about the embedding.
-/

set_option autoImplicit false

namespace Dusky

/-! Section: command dispatch (`_parse_simple_argv` / `_run_shell_async` argv
selection in `rows.py`). -/

/-- The frozen set `_SHELL_METACHAR` from `rows.py`: characters that mandate
`/bin/sh -c` interpretation.  Quotes are intentionally excluded (the shlex
split handles them).  The backtick is written `Char.ofNat 96`. -/
def SHELL_METACHAR : List Char :=
  ['|', '&', ';', '<', '>', '(', ')', '$', Char.ofNat 96, '\\', '*', '?', '#', '~', '!',
   '[', ']', '{', '}', '=', '\n']

/-- Python `_SHELL_METACHAR.intersection(command)` truthiness: does the
command contain any shell metacharacter? -/
def hasShellMetachar (s : String) : Bool :=
  s.data.any (fun c => SHELL_METACHAR.contains c)

/-- Lexer mode of the POSIX `shlex.split` model: outside quotes, inside
single quotes, inside double quotes, or just after a backslash (outside
quotes / inside double quotes). -/
inductive LexMode
  | normal
  | single
  | double
  | escNormal
  | escDouble
deriving Repr, DecidableEq

/-- One-character-at-a-time model of Python `shlex.split(command)` in POSIX
mode with whitespace splitting (the mode used by `shlex.split`):
whitespace (space, tab, CR, LF) separates tokens, single quotes quote
literally, double quotes quote with backslash escaping `"` and `\\`, and a
bare backslash escapes the next character.  `none` models the `ValueError`
raised on an unclosed quote or a trailing escape character.  Arguments:
remaining characters, mode, whether a token has started, accumulated token
characters (reversed), finished tokens (reversed). -/
def shlexRun : List Char → LexMode → Bool → List Char → List String → Option (List String)
  | [], .normal, inTok, acc, out =>
      some (if inTok then ((String.mk acc.reverse) :: out).reverse else out.reverse)
  | [], _, _, _, _ => none
  | c :: cs, .normal, inTok, acc, out =>
      if c = ' ' ∨ c = '\t' ∨ c = '\r' ∨ c = '\n' then
        if inTok then shlexRun cs .normal false [] ((String.mk acc.reverse) :: out)
        else shlexRun cs .normal false [] out
      else if c = '\'' then shlexRun cs .single true acc out
      else if c = '"' then shlexRun cs .double true acc out
      else if c = '\\' then shlexRun cs .escNormal true acc out
      else shlexRun cs .normal true (c :: acc) out
  | c :: cs, .single, _, acc, out =>
      if c = '\'' then shlexRun cs .normal true acc out
      else shlexRun cs .single true (c :: acc) out
  | c :: cs, .double, _, acc, out =>
      if c = '"' then shlexRun cs .normal true acc out
      else if c = '\\' then shlexRun cs .escDouble true acc out
      else shlexRun cs .double true (c :: acc) out
  | c :: cs, .escNormal, _, acc, out =>
      shlexRun cs .normal true (c :: acc) out
  | c :: cs, .escDouble, _, acc, out =>
      if c = '"' ∨ c = '\\' then shlexRun cs .double true (c :: acc) out
      else shlexRun cs .double true (c :: '\\' :: acc) out

/-- Model of Python `shlex.split` as invoked by `_parse_simple_argv`. -/
def shlexSplit (s : String) : Option (List String) :=
  shlexRun s.data .normal false [] []

/-- Embedding of `_parse_simple_argv` (`rows.py`): `none` when a shell
metacharacter is present, when the shlex split raises `ValueError`, or when
the split produces an empty argv (`return argv if argv else None`). -/
def parse_simple_argv (command : String) : Option (List String) :=
  if hasShellMetachar command then none
  else
    match shlexSplit command with
    | none => none
    | some [] => none
    | some argv => some argv

/-- How `_run_shell_async` dispatches a command: direct argv exec, or the
`/bin/sh -c` wrapper. -/
inductive Dispatch
  | direct (argv : List String)
  | shell (argv : List String)
deriving Repr, DecidableEq

/-- The argv selection performed by `_run_shell_async` (`rows.py`): direct
exec when `_parse_simple_argv` succeeds, otherwise the shell wrapper. -/
def run_shell_argv (command : String) : Dispatch :=
  match parse_simple_argv command with
  | some argv => .direct argv
  | none => .shell ["/bin/sh", "-c", command]

/-- C2 counterexample: the empty command contains no shell metacharacter and
its shlex split succeeds (with an empty argv), yet the executor dispatches
it through the shell wrapper, contrary to the claim that every
metacharacter-free command is dispatched as a direct argv exec. -/
theorem c2_counterexample :
    hasShellMetachar "" = false ∧ shlexSplit "" = some [] ∧
    run_shell_argv "" = Dispatch.shell ["/bin/sh", "-c", ""] := by decide

/-- C2 (amended): a command is dispatched as a direct argv exec exactly when
it contains no shell metacharacter and the shlex split succeeds with a
non-empty argv; when it contains a metacharacter, or the split fails on
malformed quoting, or the split yields an empty argv, it is dispatched as
the `/bin/sh -c` wrapper. -/
theorem c2_dispatch (command : String) :
    (∀ argv, run_shell_argv command = Dispatch.direct argv ↔
      (hasShellMetachar command = false ∧ shlexSplit command = some argv ∧ argv ≠ [])) ∧
    ((hasShellMetachar command = true ∨ shlexSplit command = none ∨
        shlexSplit command = some []) →
      run_shell_argv command = Dispatch.shell ["/bin/sh", "-c", command]) := by
  unfold run_shell_argv parse_simple_argv
  rcases hm : hasShellMetachar command with _ | _
  · rcases hs : shlexSplit command with _ | ⟨_ | ⟨a, l⟩⟩
    · simp
    · simp
    · refine ⟨fun argv => ?_, by simp⟩
      constructor
      · rintro h
        cases h
        simp
      · rintro ⟨-, h, -⟩
        cases h
        rfl
  · simp

/-- C2 witness: a plain command goes through direct exec, a piped command
through the shell wrapper. -/
theorem c2_dispatch_witness :
    run_shell_argv "brightnessctl get" = Dispatch.direct ["brightnessctl", "get"] ∧
    run_shell_argv "cat /a | grep b" = Dispatch.shell ["/bin/sh", "-c", "cat /a | grep b"] :=
  ⟨((c2_dispatch "brightnessctl get").1 ["brightnessctl", "get"]).2 (by decide),
   (c2_dispatch "cat /a | grep b").2 (by decide)⟩

/-! Section: completion result of the command executor
(`_run_shell_async.on_communicate_finish` in `rows.py`). -/

/-- Whitespace predicate of Python `str.strip()`, restricted to the ASCII
whitespace characters (command output is ASCII in this program). -/
def pyIsSpace (c : Char) : Bool :=
  c = ' ' ∨ c = '\t' ∨ c = '\n' ∨ c = '\r' ∨ c = Char.ofNat 11 ∨ c = Char.ofNat 12

/-- Model of Python `str.strip()`: drop whitespace from both ends.  Unlike
`String.trim` this is structurally recursive, so concrete witnesses
evaluate inside the kernel. -/
def pyStrip (s : String) : String :=
  String.mk (((s.data.dropWhile pyIsSpace).reverse.dropWhile pyIsSpace).reverse)

/-- Outcome of a spawned process as observed by `on_communicate_finish`:
whether `communicate_utf8_finish` raised a `GLib.Error` (this is also how a
timeout surfaces, since the timeout cancels the operation and the finish
call then raises `G_IO_ERROR_CANCELLED`), the `success` flag it returned,
`proc.get_successful()` (exit success), and the captured streams.  The
subprocess is spawned with `STDERR_SILENCE`, so `stderr` is carried here
only to prove that the result never depends on it. -/
structure CommOutcome where
  threw : Bool
  commOk : Bool
  exitSuccess : Bool
  stdout : String
  stderr : String
deriving Repr, DecidableEq

/-- Embedding of `on_communicate_finish` (`rows.py`): deliver the trimmed
stdout when the finish call succeeded, the process exited successfully and
stdout is non-empty (Python truthiness of `stdout_data`); deliver `none` in
every other case, including a raised `GLib.Error`. -/
def on_communicate_finish (r : CommOutcome) : Option String :=
  if r.threw then none
  else if r.commOk && r.exitSuccess && !(r.stdout == "") then some (pyStrip r.stdout)
  else none

/-- Completion value of a `_run_shell_async` invocation: a spawn failure
(`GLib.Error` from `spawnv`) schedules `on_complete(None)` on the idle loop;
otherwise the completion comes from `on_communicate_finish`. -/
def run_shell_result (spawnOk : Bool) (r : CommOutcome) : Option String :=
  if spawnOk then on_communicate_finish r else none

/-- C5: the executor's completion delivers the trimmed captured stdout
exactly when the spawn succeeded, no error or timeout cancelled the finish
call, the process exited successfully and stdout is non-empty; every other
case delivers a failure, and the delivered value never depends on the
captured stderr. -/
theorem c5_completion_result (spawnOk : Bool) (r : CommOutcome) :
    (∀ out, run_shell_result spawnOk r = some out ↔
      (spawnOk = true ∧ r.threw = false ∧ r.commOk = true ∧ r.exitSuccess = true ∧
       r.stdout ≠ "" ∧ out = pyStrip r.stdout)) ∧
    (∀ err, run_shell_result spawnOk { r with stderr := err } = run_shell_result spawnOk r) := by
  obtain ⟨t, c, e, so, se⟩ := r
  refine ⟨fun out => ?_, fun err => rfl⟩
  rcases spawnOk with _ | _ <;> rcases t with _ | _ <;> rcases c with _ | _ <;>
    rcases e with _ | _ <;> by_cases hso : so = ""
  all_goals simp [run_shell_result, on_communicate_finish, hso]
  exact eq_comm

/-- C5 witness: a successful run with whitespace-padded stdout delivers the
trimmed stdout; a non-zero exit delivers a failure. -/
theorem c5_completion_result_witness :
    run_shell_result true ⟨false, true, true, " 42\n", "noise"⟩ = some "42" :=
  ((c5_completion_result true ⟨false, true, true, " 42\n", "noise"⟩).1 "42").2 (by decide)

/-! Section: widget state teardown (`WidgetState.mark_destroyed_and_get_sources`,
`_safe_source_remove`, `_batch_source_remove` in `rows.py`).  Cancellation
handles (`Gio.Cancellable` or `Gio.FileMonitor`) are identified by numeric
ids; GLib's armed timeout sources are a list of source ids. -/

/-- Embedding of `PollSlot` (`rows.py`): source id of the armed periodic
timer (0 when none), the in-flight operation's cancellation handle, and the
concurrency guard flag. -/
structure WPollSlot where
  source_id : Nat
  cancellable : Option Nat
  is_running : Bool
deriving Repr, DecidableEq

/-- Embedding of `WidgetState` (`rows.py`): destroyed flag, the four
dedicated poll slots, and the slider-debounce source id.  The mutex is not
represented: every operation below is one critical section. -/
structure WidgetState where
  is_destroyed : Bool
  icon : WPollSlot
  monitor : WPollSlot
  value : WPollSlot
  misc : WPollSlot
  debounce_source_id : Nat
deriving Repr, DecidableEq

/-- Embedding of `WidgetState.mark_destroyed_and_get_sources` (`rows.py`):
atomically set destroyed, cancel and clear every slot's cancellation handle,
and harvest all five source ids (four slots in order, then the debounce id),
zeroing the fields.  Returns the new state, the harvested source ids, and
the ids of the handles on which `cancel()` was invoked. -/
def mark_destroyed_and_get_sources (w : WidgetState) :
    WidgetState × List Nat × List Nat :=
  let cancels := w.icon.cancellable.toList ++ w.monitor.cancellable.toList ++
    w.value.cancellable.toList ++ w.misc.cancellable.toList
  let w1 : WidgetState :=
    { is_destroyed := true
      icon := { w.icon with cancellable := none, source_id := 0 }
      monitor := { w.monitor with cancellable := none, source_id := 0 }
      value := { w.value with cancellable := none, source_id := 0 }
      misc := { w.misc with cancellable := none, source_id := 0 }
      debounce_source_id := 0 }
  let sources := [w.icon.source_id, w.monitor.source_id, w.value.source_id,
    w.misc.source_id, w.debounce_source_id]
  (w1, sources, cancels)

/-- Embedding of `_safe_source_remove` (`rows.py`): remove an armed GLib
source only for a positive id; removing an id that is not armed (already
fired or never existed) is a tolerated no-op. -/
def safe_source_remove (sid : Nat) (armed : List Nat) : List Nat :=
  if sid > 0 then armed.erase sid else armed

/-- Embedding of `_batch_source_remove` (`rows.py`). -/
def batch_source_remove (sids : List Nat) (armed : List Nat) : List Nat :=
  sids.foldl (fun a sid => safe_source_remove sid a) armed

/-- C8: teardown is idempotent.  A second
`mark_destroyed_and_get_sources` finds destroyed already true and leaves the
state exactly as the first call left it, returns all-zero timer ids, issues
no `cancel()` call (so no handle is released twice), and removing the
returned all-zero ids from the armed GLib sources is a no-op (no
double-cancel of a timer). -/
theorem c8_teardown_idempotent (w : WidgetState) :
    (mark_destroyed_and_get_sources (mark_destroyed_and_get_sources w).1).1 =
      (mark_destroyed_and_get_sources w).1 ∧
    (mark_destroyed_and_get_sources (mark_destroyed_and_get_sources w).1).2.1 =
      [0, 0, 0, 0, 0] ∧
    (mark_destroyed_and_get_sources (mark_destroyed_and_get_sources w).1).2.2 = [] ∧
    (∀ armed, batch_source_remove
      (mark_destroyed_and_get_sources (mark_destroyed_and_get_sources w).1).2.1 armed =
      armed) := by
  refine ⟨rfl, rfl, rfl, fun armed => ?_⟩
  simp [mark_destroyed_and_get_sources, batch_source_remove, safe_source_remove]

/-! Section: the polling engine (`AsyncPollingMixin` in `rows.py`).  The
engine is modelled as a transition system over the state of one widget with
one poll slot (slots of one widget are independent objects, each bound to
its own loop).  Every `_run_shell_async` invocation ever launched is
recorded; fetch ids index that record, and a slot's `cancellable` handle is
the id of the invocation it belongs to.  All handlers run on the single
GLib main thread, so each handler is one atomic step. -/

/-- Record of one `_run_shell_async` invocation: whether `spawnv` succeeded
(a failed spawn still schedules a `None` completion on the idle loop),
whether its `Gio.Cancellable` has been cancelled, whether its completion
callback has run, and whether the cancel happened before the completion
(in which case `communicate_utf8_finish` raises `G_IO_ERROR_CANCELLED` and
the completion delivers `None`). -/
structure Fetch where
  spawnOk : Bool
  cancelled : Bool
  completed : Bool
  earlyCancelled : Bool
deriving Repr, DecidableEq

/-- State of the engine bound to one slot of one widget: the widget-state
flag and slot, the record of all fetches launched so far (ids below
`nextFetch`), the armed periodic GLib timeout of this slot (with a positive
fresh-id counter), whether the widget is mapped, and the log of
`on_output` deliveries (fetch id and delivered string). -/
structure EngState where
  is_destroyed : Bool
  mapped : Bool
  slot : WPollSlot
  fetches : Nat → Fetch
  nextFetch : Nat
  armedTimer : Option Nat
  nextTimer : Nat
  outputs : List (Nat × String)

/-- Mark fetch `i` cancelled (`cancellable.cancel()` — idempotent, and a
late cancel of a completed operation only sets the flag). -/
def cancelFetchAt (s : EngState) (i : Nat) : EngState :=
  { s with fetches := Function.update s.fetches i { s.fetches i with cancelled := true } }

/-- The spawn half of `_run_shell_async` (`rows.py`): on success return the
new invocation's cancellation handle and record the in-flight fetch; on a
spawn failure return no handle (`return None`) and record an invocation
whose completion will deliver `None` from the idle loop. -/
def run_shell_async_launch (spawnOk : Bool) (s : EngState) : Option Nat × EngState :=
  if spawnOk then
    (some s.nextFetch,
     { s with
       fetches := Function.update s.fetches s.nextFetch ⟨true, false, false, false⟩
       nextFetch := s.nextFetch + 1 })
  else
    (none,
     { s with
       fetches := Function.update s.fetches s.nextFetch ⟨false, false, false, false⟩
       nextFetch := s.nextFetch + 1 })

/-- Embedding of `AsyncPollingMixin._poll_command` (`rows.py`): bail out and
clear the running flag when destroyed; otherwise defensively cancel and
clear any in-flight operation on the slot, launch a new invocation, and
store its handle in the slot — unless the widget was destroyed in the
interim, in which case the fresh invocation is cancelled instead (that
branch is unreachable in the single-threaded model but kept faithful to the
code).  `launch_and_store` is the tail of `_poll_command` after the
defensive cancel: launch, then store or immediately cancel the handle. -/
def launch_and_store (spawnOk : Bool) (s1 : EngState) : EngState :=
  match run_shell_async_launch spawnOk s1 with
  | (some fid, s2) =>
      if s2.is_destroyed = false then
        { s2 with slot := { s2.slot with cancellable := some fid } }
      else cancelFetchAt s2 fid
  | (none, s2) => s2

/-- The body of `_poll_command`: early exit when destroyed (clearing the
running flag), defensive cancel of the slot's in-flight operation, then
launch and store. -/
def poll_command (spawnOk : Bool) (s : EngState) : EngState :=
  if s.is_destroyed then { s with slot := { s.slot with is_running := false } }
  else
    match s.slot.cancellable with
    | some c =>
        launch_and_store spawnOk
          { cancelFetchAt s c with slot := { s.slot with cancellable := none } }
    | none => launch_and_store spawnOk s

/-- Embedding of `AsyncPollingMixin._poll_tick` (`rows.py`): the timer only
fires while armed; an unmapped widget skips the tick (`SOURCE_CONTINUE`); a
destroyed widget stops the timer (`SOURCE_REMOVE`); a slot still running
skips the tick (`SOURCE_CONTINUE`); otherwise the slot is marked running
and `_poll_command` runs. -/
def poll_tick (spawnOk : Bool) (s : EngState) : EngState :=
  if s.armedTimer = none then s
  else if s.mapped = false then s
  else if s.is_destroyed then { s with armedTimer := none }
  else if s.slot.is_running then s
  else poll_command spawnOk { s with slot := { s.slot with is_running := true } }

/-- Embedding of `AsyncPollingMixin._start_poll_loop` (`rows.py`): an
immediate fetch when requested (note: without setting the running flag),
then — unless destroyed — arm the periodic timer and store its id in the
slot. -/
def start_poll_loop (immediate : Bool) (spawnOk : Bool) (s : EngState) : EngState :=
  let s1 := if immediate then poll_command spawnOk s else s
  if s1.is_destroyed then s1
  else
    { s1 with
      slot := { s1.slot with source_id := s1.nextTimer }
      armedTimer := some s1.nextTimer
      nextTimer := s1.nextTimer + 1 }

/-- Embedding of `on_result` inside `_poll_command` (`rows.py`), fused with
the Gio completion semantics: a completion exists only for a launched,
not-yet-completed invocation; it delivers `None` when the invocation was
cancelled before completing or never spawned, otherwise whatever the
process run produced (`envOut`).  The handler clears the running flag,
clears the slot's handle only if it still refers to this invocation,
discards the output when destroyed, and otherwise delivers a non-`None`
output to `on_output` (recorded in `outputs`).  `complete_state` is the
state mutation of the handler under the lock: mark the invocation
completed (latching whether it had been cancelled by then), clear the
running flag, and clear the slot handle only if it is this invocation's. -/
def complete_state (i : Nat) (s : EngState) : EngState :=
  { s with
    fetches := Function.update s.fetches i
      { s.fetches i with completed := true, earlyCancelled := (s.fetches i).cancelled }
    slot :=
      { s.slot with
        is_running := false
        cancellable := if s.slot.cancellable = some i then none else s.slot.cancellable } }

/-- The value the completion of invocation `i` delivers: `None` when the
invocation was cancelled before completing or never spawned, otherwise
whatever the process run produced. -/
def completion_value (i : Nat) (envOut : Option String) (s : EngState) : Option String :=
  if (s.fetches i).spawnOk = false ∨ (s.fetches i).cancelled = true then none else envOut

def on_result (i : Nat) (envOut : Option String) (s : EngState) : EngState :=
  if i < s.nextFetch ∧ (s.fetches i).completed = false then
    if (complete_state i s).is_destroyed then complete_state i s
    else
      match completion_value i envOut s with
      | some out =>
          { complete_state i s with outputs := (complete_state i s).outputs ++ [(i, out)] }
      | none => complete_state i s
  else s

/-- The completion handler only runs for a launched, pending invocation. -/
theorem on_result_guard (i : Nat) (envOut : Option String) (s : EngState)
    (hg : ¬ (i < s.nextFetch ∧ (s.fetches i).completed = false)) :
    on_result i envOut s = s := by
  unfold on_result
  rw [if_neg hg]

/-- Invoking the cancellation handle of invocation `i` (also how the
per-invocation timeout fires: `on_timeout` cancels the cancellable). -/
def cancel_fetch (i : Nat) (s : EngState) : EngState :=
  if i < s.nextFetch then cancelFetchAt s i else s

/-- Teardown of the widget, restricted to this slot:
`mark_destroyed_and_get_sources` (set destroyed, cancel and clear the
slot's handle, harvest and zero the source id) followed by
`_batch_source_remove` on the harvested id. -/
def teardown (s : EngState) : EngState :=
  let s1 :=
    match s.slot.cancellable with
    | some c => cancelFetchAt s c
    | none => s
  let s2 :=
    { s1 with
      is_destroyed := true
      slot := { s1.slot with cancellable := none, source_id := 0 } }
  if 0 < s.slot.source_id ∧ s2.armedTimer = some s.slot.source_id then
    { s2 with armedTimer := none }
  else s2

/-- The events the engine reacts to. -/
inductive Event
  | start (immediate spawnOk : Bool)
  | tick (spawnOk : Bool)
  | complete (i : Nat) (envOut : Option String)
  | cancelEv (i : Nat)
  | teardownEv
  | setMapped (b : Bool)

/-- One step of the engine. -/
def step (s : EngState) : Event → EngState
  | .start im ok => start_poll_loop im ok s
  | .tick ok => poll_tick ok s
  | .complete i out => on_result i out s
  | .cancelEv i => cancel_fetch i s
  | .teardownEv => teardown s
  | .setMapped b => { s with mapped := b }

/-- The state of a freshly constructed widget: not destroyed, mapped, an
empty slot, no fetch launched, no timer armed. -/
def engInit : EngState :=
  { is_destroyed := false
    mapped := true
    slot := ⟨0, none, false⟩
    fetches := fun _ => ⟨false, false, false, false⟩
    nextFetch := 0
    armedTimer := none
    nextTimer := 1
    outputs := [] }

/-- Run a sequence of events. -/
def runEvents (s : EngState) (evs : List Event) : EngState :=
  evs.foldl step s

/-- Invocation `i` is in flight and not cancelled: its process was spawned,
its completion has not yet been delivered, and its handle has not been
cancelled. -/
def InFlight (s : EngState) (i : Nat) : Prop :=
  i < s.nextFetch ∧ (s.fetches i).spawnOk = true ∧
  (s.fetches i).completed = false ∧ (s.fetches i).cancelled = false

instance (s : EngState) (i : Nat) : Decidable (InFlight s i) := by
  unfold InFlight
  infer_instance

/-- The engine invariant: every un-cancelled in-flight invocation is the one
the slot's handle refers to; ids at or above the counter are unused; the
armed timer's id is the positive id stored in the slot; the timer counter
stays positive; and every delivered output belongs to a completed
invocation that was not cancelled before its completion. -/
def EngInv (s : EngState) : Prop :=
  (∀ i, InFlight s i → s.slot.cancellable = some i) ∧
  (∀ i, s.nextFetch ≤ i → (s.fetches i).spawnOk = false) ∧
  (∀ t, s.armedTimer = some t → s.slot.source_id = t ∧ 0 < t) ∧
  (0 < s.nextTimer) ∧
  (∀ p, p ∈ s.outputs → p.1 < s.nextFetch ∧ (s.fetches p.1).completed = true ∧
    (s.fetches p.1).earlyCancelled = false)

theorem InFlight_cancelFetchAt (s : EngState) (c i : Nat) :
    InFlight (cancelFetchAt s c) i ↔ InFlight s i ∧ i ≠ c := by
  unfold InFlight cancelFetchAt
  by_cases hic : i = c
  · subst hic
    simp [Function.update_same]
  · simp [Function.update_noteq hic, hic]

theorem engInv_cancelFetchAt (s : EngState) (c : Nat) (h : EngInv s) :
    EngInv (cancelFetchAt s c) := by
  obtain ⟨h1, h2, h3, h4, h5⟩ := h
  refine ⟨?_, ?_, h3, h4, ?_⟩
  · intro i hi
    rw [InFlight_cancelFetchAt] at hi
    exact h1 i hi.1
  · intro i hni
    by_cases hic : i = c
    · subst hic
      simpa [cancelFetchAt, Function.update_same] using h2 i hni
    · simpa [cancelFetchAt, Function.update_noteq hic] using h2 i hni
  · intro p hp
    have hold := h5 p hp
    by_cases hic : p.1 = c
    · rw [hic] at hold ⊢
      simpa [cancelFetchAt, Function.update_same] using hold
    · simpa [cancelFetchAt, Function.update_noteq hic] using hold

theorem engInv_cancel_fetch (s : EngState) (i : Nat) (h : EngInv s) :
    EngInv (cancel_fetch i s) := by
  unfold cancel_fetch
  split
  · exact engInv_cancelFetchAt s i h
  · exact h

theorem InFlight_congr {s t : EngState} (hf : t.fetches = s.fetches)
    (hn : t.nextFetch = s.nextFetch) (i : Nat) : InFlight t i ↔ InFlight s i := by
  unfold InFlight
  rw [hf, hn]

/-- The engine invariant only looks at a fixed set of components. -/
theorem engInv_congr {s t : EngState} (hc : t.slot.cancellable = s.slot.cancellable)
    (hsi : t.slot.source_id = s.slot.source_id) (hf : t.fetches = s.fetches)
    (hn : t.nextFetch = s.nextFetch) (ha : t.armedTimer = s.armedTimer)
    (hnt : t.nextTimer = s.nextTimer) (ho : t.outputs = s.outputs)
    (h : EngInv s) : EngInv t := by
  obtain ⟨h1, h2, h3, h4, h5⟩ := h
  refine ⟨?_, ?_, ?_, ?_, ?_⟩
  · intro i hi
    rw [InFlight_congr hf hn] at hi
    rw [hc]
    exact h1 i hi
  · intro i hni
    rw [hn] at hni
    rw [hf]
    exact h2 i hni
  · intro u hu
    rw [ha] at hu
    rw [hsi]
    exact h3 u hu
  · rw [hnt]
    exact h4
  · intro p hp
    rw [ho] at hp
    rw [hf, hn]
    exact h5 p hp

/-- Launching into a state with a cleared handle and nothing in flight
restores the full invariant: the new invocation is the unique in-flight one
and its handle is stored (or, on spawn failure, nothing is in flight). -/
theorem engInv_launch_and_store (ok : Bool) (s1 : EngState)
    (hd : s1.is_destroyed = false)
    (hno : ∀ i, ¬ InFlight s1 i)
    (h2 : ∀ i, s1.nextFetch ≤ i → (s1.fetches i).spawnOk = false)
    (h3 : ∀ t, s1.armedTimer = some t → s1.slot.source_id = t ∧ 0 < t)
    (h4 : 0 < s1.nextTimer)
    (h5 : ∀ p, p ∈ s1.outputs → p.1 < s1.nextFetch ∧ (s1.fetches p.1).completed = true ∧
      (s1.fetches p.1).earlyCancelled = false) :
    EngInv (launch_and_store ok s1) := by
  rcases ok with _ | _
  · -- spawn failure: a fetch record with spawnOk = false, handle unchanged
    simp only [launch_and_store, run_shell_async_launch, Bool.false_eq_true, if_false]
    refine ⟨?_, ?_, h3, h4, ?_⟩
    · intro i hi
      exfalso
      unfold InFlight at hi
      by_cases hif : i = s1.nextFetch
      · rw [hif] at hi
        simp [Function.update_same] at hi
      · simp only [Function.update_noteq hif] at hi
        exact hno i ⟨by omega, hi.2.1, hi.2.2⟩
    · intro i hni
      simp only at hni ⊢
      have hif : i ≠ s1.nextFetch := by omega
      rw [Function.update_noteq hif]
      exact h2 i (by omega)
    · intro p hp
      simp only at hp ⊢
      have := h5 p hp
      have hif : p.1 ≠ s1.nextFetch := by omega
      rw [Function.update_noteq hif]
      exact ⟨by omega, this.2.1, this.2.2⟩
  · -- spawn success: handle of the fresh invocation stored
    simp only [launch_and_store, run_shell_async_launch, if_true]
    rw [if_pos (by simpa using hd)]
    refine ⟨?_, ?_, h3, h4, ?_⟩
    · intro i hi
      unfold InFlight at hi
      simp only at hi ⊢
      by_cases hif : i = s1.nextFetch
      · rw [hif]
      · exfalso
        rw [Function.update_noteq hif] at hi
        exact hno i ⟨by omega, hi.2.1, hi.2.2⟩
    · intro i hni
      simp only at hni ⊢
      have hif : i ≠ s1.nextFetch := by omega
      rw [Function.update_noteq hif]
      exact h2 i (by omega)
    · intro p hp
      simp only at hp ⊢
      have := h5 p hp
      have hif : p.1 ≠ s1.nextFetch := by omega
      rw [Function.update_noteq hif]
      exact ⟨by omega, this.2.1, this.2.2⟩

theorem engInv_poll_command (ok : Bool) (s : EngState) (h : EngInv s) :
    EngInv (poll_command ok s) := by
  obtain ⟨h1, h2, h3, h4, h5⟩ := h
  unfold poll_command
  rcases hds : s.is_destroyed with _ | _
  · rw [if_neg (by simp [hds])]
    rcases hc : s.slot.cancellable with _ | c
    all_goals simp only [hc]
    · exact engInv_launch_and_store ok s hds
        (fun i hi => by have := h1 i hi; rw [hc] at this; cases this)
        h2 h3 h4 h5
    · refine engInv_launch_and_store _ _ hds ?_ ?_ ?_ h4 ?_
      · intro i hi
        rw [show ({ cancelFetchAt s c with
            slot := { s.slot with cancellable := none } } : EngState).fetches =
          (cancelFetchAt s c).fetches from rfl] at hi
        have hi' : InFlight (cancelFetchAt s c) i := hi
        rw [InFlight_cancelFetchAt] at hi'
        have := h1 i hi'.1
        rw [hc] at this
        exact hi'.2 (by injection this with h; exact h.symm)
      · intro i hni
        have := (engInv_cancelFetchAt s c ⟨h1, h2, h3, h4, h5⟩).2.1 i hni
        exact this
      · intro t ht
        exact h3 t ht
      · intro p hp
        exact (engInv_cancelFetchAt s c ⟨h1, h2, h3, h4, h5⟩).2.2.2.2 p hp
  · rw [if_pos (by simp [hds])]
    exact engInv_congr rfl rfl rfl rfl rfl rfl rfl ⟨h1, h2, h3, h4, h5⟩

theorem complete_state_fetches_at (i j : Nat) (s : EngState) (hji : j ≠ i) :
    (complete_state i s).fetches j = s.fetches j := by
  unfold complete_state
  simp only
  rw [Function.update_noteq hji]

theorem complete_state_fetches_self (i : Nat) (s : EngState) :
    (complete_state i s).fetches i = { s.fetches i with completed := true, earlyCancelled := (s.fetches i).cancelled } := by
  unfold complete_state
  simp only
  rw [Function.update_same]

theorem engInv_complete_state (i : Nat) (s : EngState) (h : EngInv s)
    (hilt : i < s.nextFetch) (hicomp : (s.fetches i).completed = false) :
    EngInv (complete_state i s) := by
  obtain ⟨h1, h2, h3, h4, h5⟩ := h
  refine ⟨?_, ?_, h3, h4, ?_⟩
  · intro j hj
    unfold InFlight at hj
    by_cases hji : j = i
    · exfalso
      rw [hji, complete_state_fetches_self] at hj
      simp at hj
    · rw [complete_state_fetches_at i j s hji] at hj
      have hcj := h1 j ⟨hj.1, hj.2.1, hj.2.2.1, hj.2.2.2⟩
      show (if s.slot.cancellable = some i then none else s.slot.cancellable) = some j
      rw [if_neg (by rw [hcj]; exact fun hh => hji (Option.some.inj hh)), hcj]
  · intro j hj
    have hj' : s.nextFetch ≤ j := hj
    have hji : j ≠ i := by omega
    rw [complete_state_fetches_at i j s hji]
    exact h2 j hj'
  · intro p hp
    have hold := h5 p hp
    by_cases hpi : p.1 = i
    · exfalso
      rw [hpi, hicomp] at hold
      exact Bool.false_ne_true hold.2.1
    · rw [complete_state_fetches_at i p.1 s hpi]
      exact hold

theorem engInv_on_result (i : Nat) (envOut : Option String) (s : EngState)
    (h : EngInv s) : EngInv (on_result i envOut s) := by
  unfold on_result
  split
  case isFalse => exact h
  case isTrue hg =>
  have hcs := engInv_complete_state i s h hg.1 hg.2
  split
  case isTrue => exact hcs
  case isFalse =>
  split
  case h_2 => exact hcs
  case h_1 out heq =>
  obtain ⟨c1, c2, c3, c4, c5⟩ := hcs
  refine ⟨c1, c2, c3, c4, ?_⟩
  intro p hp
  have houts : ({ complete_state i s with
      outputs := (complete_state i s).outputs ++ [(i, out)] } : EngState).outputs =
      (complete_state i s).outputs ++ [(i, out)] := rfl
  rw [houts, List.mem_append] at hp
  rcases hp with hp | hp
  · exact c5 p hp
  · rw [List.mem_singleton] at hp
    subst hp
    have hcf : (s.fetches i).cancelled = false := by
      by_cases hcond : (s.fetches i).spawnOk = false ∨ (s.fetches i).cancelled = true
      · exfalso
        unfold completion_value at heq
        rw [if_pos hcond] at heq
        cases heq
      · rcases hcc : (s.fetches i).cancelled with _ | _
        · rfl
        · exact absurd (Or.inr hcc) hcond
    refine ⟨hg.1, ?_, ?_⟩
    · show ((complete_state i s).fetches i).completed = true
      rw [complete_state_fetches_self]
    · show ((complete_state i s).fetches i).earlyCancelled = false
      rw [complete_state_fetches_self]
      exact hcf

theorem engInv_poll_tick (ok : Bool) (s : EngState) (h : EngInv s) :
    EngInv (poll_tick ok s) := by
  unfold poll_tick
  split
  · exact h
  split
  · exact h
  split
  · obtain ⟨h1, h2, h3, h4, h5⟩ := h
    refine ⟨h1, h2, ?_, h4, h5⟩
    intro t ht
    exact absurd (show (none : Option Nat) = some t from ht) (by simp)
  split
  · exact h
  · exact engInv_poll_command ok _ (engInv_congr rfl rfl rfl rfl rfl rfl rfl h)

theorem engInv_arm (s1 : EngState) (h : EngInv s1) :
    EngInv (if s1.is_destroyed = true then s1
      else { s1 with
        slot := { s1.slot with source_id := s1.nextTimer }
        armedTimer := some s1.nextTimer
        nextTimer := s1.nextTimer + 1 }) := by
  obtain ⟨h1, h2, h3, h4, h5⟩ := h
  split
  · exact ⟨h1, h2, h3, h4, h5⟩
  · refine ⟨h1, h2, ?_, ?_, h5⟩
    · intro t ht
      have heq : s1.nextTimer = t := Option.some.inj ht
      refine ⟨heq, ?_⟩
      omega
    · show 0 < s1.nextTimer + 1
      omega

theorem engInv_start_poll_loop (im ok : Bool) (s : EngState) (h : EngInv s) :
    EngInv (start_poll_loop im ok s) := by
  unfold start_poll_loop
  rcases im with _ | _
  · simp only [Bool.false_eq_true, if_false]
    exact engInv_arm s h
  · simp only [if_true]
    exact engInv_arm (poll_command ok s) (engInv_poll_command ok s h)

theorem engInv_teardown (s : EngState) (h : EngInv s) : EngInv (teardown s) := by
  obtain ⟨h1, h2, h3, h4, h5⟩ := h
  unfold teardown
  rcases hc : s.slot.cancellable with _ | c <;> simp only [hc]
  · have hno : ∀ j, ¬ InFlight s j := by
      intro j hj
      have := h1 j hj
      rw [hc] at this
      cases this
    split
    case isTrue hcond =>
      exact ⟨fun j hj => absurd hj (hno j), h2,
        fun t ht => absurd (show (none : Option Nat) = some t from ht) (by simp), h4, h5⟩
    case isFalse hcond =>
      refine ⟨fun j hj => absurd hj (hno j), h2, ?_, h4, h5⟩
      intro t ht
      exfalso
      have harm : s.armedTimer = some t := ht
      have hsrc := h3 t harm
      refine hcond ⟨by omega, ?_⟩
      show s.armedTimer = some s.slot.source_id
      rw [show s.slot.source_id = t from hsrc.1]
      exact harm
  · obtain ⟨b1, b2, b3, b4, b5⟩ := engInv_cancelFetchAt s c ⟨h1, h2, h3, h4, h5⟩
    have hno : ∀ j, ¬ InFlight (cancelFetchAt s c) j := by
      intro j hj
      rw [InFlight_cancelFetchAt] at hj
      have := h1 j hj.1
      rw [hc] at this
      exact hj.2 (Option.some.inj this).symm
    split
    case isTrue hcond =>
      exact ⟨fun j hj => absurd hj (hno j), b2,
        fun t ht => absurd (show (none : Option Nat) = some t from ht) (by simp), b4, b5⟩
    case isFalse hcond =>
      refine ⟨fun j hj => absurd hj (hno j), b2, ?_, b4, b5⟩
      intro t ht
      exfalso
      have harm : s.armedTimer = some t := ht
      have hsrc := h3 t harm
      refine hcond ⟨by omega, ?_⟩
      show s.armedTimer = some s.slot.source_id
      rw [show s.slot.source_id = t from hsrc.1]
      exact harm

theorem engInv_step (s : EngState) (e : Event) (h : EngInv s) : EngInv (step s e) := by
  cases e with
  | start im ok => exact engInv_start_poll_loop im ok s h
  | tick ok => exact engInv_poll_tick ok s h
  | complete i out => exact engInv_on_result i out s h
  | cancelEv i => exact engInv_cancel_fetch s i h
  | teardownEv => exact engInv_teardown s h
  | setMapped b => exact engInv_congr rfl rfl rfl rfl rfl rfl rfl h

theorem engInv_engInit : EngInv engInit := by
  refine ⟨?_, ?_, ?_, ?_, ?_⟩
  · intro i hi
    exact absurd hi.1 (show ¬ i < 0 by omega)
  · intro i hni
    rfl
  · intro t ht
    exact absurd (show (none : Option Nat) = some t from ht) (by simp)
  · show 0 < 1
    omega
  · intro p hp
    exact absurd hp (List.not_mem_nil p)

theorem engInv_runEvents (s : EngState) (evs : List Event) (h : EngInv s) :
    EngInv (runEvents s evs) := by
  induction evs generalizing s with
  | nil => exact h
  | cons e evs ih => exact ih (step s e) (engInv_step s e h)

/-- A torn-down widget: destroyed, no handle, no source id, no armed
timer. -/
def Dead (s : EngState) : Prop :=
  s.is_destroyed = true ∧ s.slot.cancellable = none ∧ s.slot.source_id = 0 ∧
  s.armedTimer = none

theorem dead_teardown (s : EngState) (h : EngInv s) :
    Dead (teardown s) ∧ (teardown s).outputs = s.outputs := by
  unfold teardown
  rcases hc : s.slot.cancellable with _ | c <;> simp only [hc] <;> split
  case _ hcond =>
    exact ⟨⟨rfl, rfl, rfl, rfl⟩, rfl⟩
  case _ hcond =>
    refine ⟨⟨rfl, rfl, rfl, ?_⟩, rfl⟩
    show s.armedTimer = none
    rcases ha : s.armedTimer with _ | t
    · rfl
    · exfalso
      have hsrc := h.2.2.1 t ha
      refine hcond ⟨by omega, ?_⟩
      show s.armedTimer = some s.slot.source_id
      rw [show s.slot.source_id = t from hsrc.1]
      exact ha
  case _ hcond =>
    exact ⟨⟨rfl, rfl, rfl, rfl⟩, rfl⟩
  case _ hcond =>
    refine ⟨⟨rfl, rfl, rfl, ?_⟩, rfl⟩
    show s.armedTimer = none
    rcases ha : s.armedTimer with _ | t
    · rfl
    · exfalso
      have hsrc := h.2.2.1 t ha
      refine hcond ⟨by omega, ?_⟩
      show s.armedTimer = some s.slot.source_id
      rw [show s.slot.source_id = t from hsrc.1]
      exact ha

theorem dead_poll_command (ok : Bool) (s : EngState) (h : Dead s) :
    poll_command ok s = { s with slot := { s.slot with is_running := false } } := by
  unfold poll_command
  rw [if_pos h.1]

theorem dead_step (s : EngState) (e : Event) (h : Dead s) :
    Dead (step s e) ∧ (step s e).outputs = s.outputs := by
  obtain ⟨hd, hcan, hsi, harm⟩ := h
  cases e with
  | start im ok =>
      show Dead (start_poll_loop im ok s) ∧ (start_poll_loop im ok s).outputs = s.outputs
      unfold start_poll_loop
      rcases im with _ | _
      · simp only [Bool.false_eq_true, if_false]
        rw [if_pos hd]
        exact ⟨⟨hd, hcan, hsi, harm⟩, rfl⟩
      · simp only [if_true]
        rw [dead_poll_command ok s ⟨hd, hcan, hsi, harm⟩]
        rw [if_pos hd]
        exact ⟨⟨hd, hcan, hsi, harm⟩, rfl⟩
  | tick ok =>
      show Dead (poll_tick ok s) ∧ (poll_tick ok s).outputs = s.outputs
      unfold poll_tick
      rw [if_pos harm]
      exact ⟨⟨hd, hcan, hsi, harm⟩, rfl⟩
  | complete i out =>
      show Dead (on_result i out s) ∧ (on_result i out s).outputs = s.outputs
      unfold on_result
      split
      case isFalse => exact ⟨⟨hd, hcan, hsi, harm⟩, rfl⟩
      case isTrue hg =>
        rw [if_pos (show (complete_state i s).is_destroyed = true from hd)]
        refine ⟨⟨hd, ?_, hsi, harm⟩, rfl⟩
        show (if s.slot.cancellable = some i then none else s.slot.cancellable) = none
        rw [hcan]
        split <;> rfl
  | cancelEv i =>
      show Dead (cancel_fetch i s) ∧ (cancel_fetch i s).outputs = s.outputs
      unfold cancel_fetch
      split <;> exact ⟨⟨hd, hcan, hsi, harm⟩, rfl⟩
  | teardownEv =>
      show Dead (teardown s) ∧ (teardown s).outputs = s.outputs
      unfold teardown
      simp only [hcan]
      rw [if_neg (by rw [hsi]; exact fun hh => by omega)]
      exact ⟨⟨rfl, rfl, rfl, harm⟩, rfl⟩
  | setMapped b =>
      exact ⟨⟨hd, hcan, hsi, harm⟩, rfl⟩

theorem dead_runEvents (s : EngState) (evs : List Event) (h : Dead s) :
    Dead (runEvents s evs) ∧ (runEvents s evs).outputs = s.outputs := by
  induction evs generalizing s with
  | nil => exact ⟨h, rfl⟩
  | cons e evs ih =>
      obtain ⟨h1, h2⟩ := dead_step s e h
      obtain ⟨h3, h4⟩ := ih (step s e) h1
      exact ⟨h3, by rw [show runEvents s (e :: evs) = runEvents (step s e) evs from rfl,
        h4, h2]⟩

/-- C1: at most one in-flight un-cancelled fetch per slot — in every state
the engine can reach by any event sequence (ticks, completions arriving
arbitrarily late, the immediate first fetch of `_start_poll_loop`,
cancellations, teardown, mapping changes), any two un-cancelled in-flight
invocations of the slot are the same one. -/
theorem c1_at_most_one_in_flight (evs : List Event) (i j : Nat)
    (hi : InFlight (runEvents engInit evs) i) (hj : InFlight (runEvents engInit evs) j) :
    i = j := by
  have h := engInv_runEvents engInit evs engInv_engInit
  have hci := h.1 i hi
  have hcj := h.1 j hj
  rw [hci] at hcj
  exact Option.some.inj hcj

/-- C1 witness: the scenario of the claim — an immediate first fetch, then
two ticks fire while completions are still pending; only invocation 1 is in
flight un-cancelled, and the theorem applies to it. -/
theorem c1_at_most_one_in_flight_witness :
    InFlight (runEvents engInit [Event.start true true, Event.tick true, Event.tick true]) 1 ∧
    (1 : Nat) = 1 :=
  ⟨by decide,
   c1_at_most_one_in_flight [Event.start true true, Event.tick true, Event.tick true] 1 1
     (by decide) (by decide)⟩

/-- C3: after teardown (`mark_destroyed_and_get_sources` plus removal of the
harvested timer sources) of any reachable widget state, no sequence of later
events — late completions included — changes the delivered-output log, the
widget stays destroyed, and no event re-arms the slot: the handle stays
`none`, the source id stays 0, and no timer is armed again. -/
theorem c3_teardown_no_mutation (tr evs : List Event) :
    (runEvents (teardown (runEvents engInit tr)) evs).outputs =
      (teardown (runEvents engInit tr)).outputs ∧
    (runEvents (teardown (runEvents engInit tr)) evs).is_destroyed = true ∧
    (runEvents (teardown (runEvents engInit tr)) evs).slot.cancellable = none ∧
    (runEvents (teardown (runEvents engInit tr)) evs).slot.source_id = 0 ∧
    (runEvents (teardown (runEvents engInit tr)) evs).armedTimer = none := by
  have hinv := engInv_runEvents engInit tr engInv_engInit
  obtain ⟨hdead, -⟩ := dead_teardown (runEvents engInit tr) hinv
  obtain ⟨⟨d1, d2, d3, d4⟩, d5⟩ := dead_runEvents (teardown (runEvents engInit tr)) evs hdead
  exact ⟨d5, d1, d2, d3, d4⟩

/-- Projections of the launch-and-store tail of `_poll_command` when the
widget is alive: a fresh invocation is recorded (with the spawn outcome),
the id counter advances, and the running flag and timer are untouched. -/
theorem launch_and_store_spec (ok : Bool) (s1 : EngState) (hd : s1.is_destroyed = false) :
    (launch_and_store ok s1).nextFetch = s1.nextFetch + 1 ∧
    (launch_and_store ok s1).slot.is_running = s1.slot.is_running ∧
    (launch_and_store ok s1).armedTimer = s1.armedTimer ∧
    (launch_and_store ok s1).fetches s1.nextFetch = ⟨ok, false, false, false⟩ := by
  rcases ok with _ | _ <;>
    simp [launch_and_store, run_shell_async_launch, hd, Function.update_same]

/-- Projections of `_poll_command` on a live widget: the running flag is
untouched, one fresh invocation is recorded with the spawn outcome, and the
timer is untouched. -/
theorem poll_command_alive_spec (ok : Bool) (s : EngState) (hd : s.is_destroyed = false) :
    (poll_command ok s).slot.is_running = s.slot.is_running ∧
    (poll_command ok s).nextFetch = s.nextFetch + 1 ∧
    (poll_command ok s).armedTimer = s.armedTimer ∧
    (poll_command ok s).fetches s.nextFetch = ⟨ok, false, false, false⟩ := by
  unfold poll_command
  rw [if_neg (by rw [hd]; exact fun hh => nomatch hh)]
  rcases hc : s.slot.cancellable with _ | c
  · simp only [hc]
    obtain ⟨l1, l2, l3, l4⟩ := launch_and_store_spec ok s hd
    exact ⟨l2, l1, l3, l4⟩
  · simp only [hc]
    obtain ⟨l1, l2, l3, l4⟩ := launch_and_store_spec ok
      { cancelFetchAt s c with slot := { s.slot with cancellable := none } } hd
    refine ⟨l2, l1, l3, ?_⟩
    by_cases hcnf : c = s.nextFetch
    · exact l4
    · exact l4

/-- C7: the four cases of a timer tick.  While the timer is armed: an
unmapped widget skips the tick with the whole state (timer included)
unchanged; a destroyed widget has exactly its timer removed; a slot already
running skips the tick with the state unchanged; otherwise the slot is
marked running and a fetch attempt is launched (recorded with the spawn
outcome), leaving the timer scheduled. -/
theorem c7_poll_tick_cases (ok : Bool) (s : EngState) (t : Nat)
    (harm : s.armedTimer = some t) :
    (s.mapped = false → poll_tick ok s = s) ∧
    (s.mapped = true → s.is_destroyed = true →
      poll_tick ok s = { s with armedTimer := none }) ∧
    (s.mapped = true → s.is_destroyed = false → s.slot.is_running = true →
      poll_tick ok s = s) ∧
    (s.mapped = true → s.is_destroyed = false → s.slot.is_running = false →
      (poll_tick ok s).slot.is_running = true ∧
      (poll_tick ok s).nextFetch = s.nextFetch + 1 ∧
      (poll_tick ok s).armedTimer = s.armedTimer ∧
      (poll_tick ok s).fetches s.nextFetch = ⟨ok, false, false, false⟩) := by
  have harm' : ¬ s.armedTimer = none := by rw [harm]; exact fun hh => nomatch hh
  refine ⟨?_, ?_, ?_, ?_⟩
  · intro hm
    unfold poll_tick
    rw [if_neg harm', if_pos hm]
  · intro hm hd
    unfold poll_tick
    rw [if_neg harm', if_neg (by rw [hm]; exact fun hh => nomatch hh), if_pos (by rw [hd])]
  · intro hm hd hr
    unfold poll_tick
    rw [if_neg harm', if_neg (by rw [hm]; exact fun hh => nomatch hh),
      if_neg (by rw [hd]; exact fun hh => nomatch hh), if_pos hr]
  · intro hm hd hr
    unfold poll_tick
    rw [if_neg harm', if_neg (by rw [hm]; exact fun hh => nomatch hh),
      if_neg (by rw [hd]; exact fun hh => nomatch hh),
      if_neg (by rw [hr]; exact fun hh => nomatch hh)]
    obtain ⟨p1, p2, p3, p4⟩ := poll_command_alive_spec ok
      { s with slot := { s.slot with is_running := true } } hd
    exact ⟨p1, p2, p3, p4⟩

/-- C7 witness: the four tick cases at concrete states with an armed
timer. -/
theorem c7_poll_tick_cases_witness :
    poll_tick true
        (⟨false, false, ⟨1, none, false⟩, fun _ => ⟨false, false, false, false⟩, 0,
          some 1, 2, []⟩ : EngState) =
      ⟨false, false, ⟨1, none, false⟩, fun _ => ⟨false, false, false, false⟩, 0,
        some 1, 2, []⟩ ∧
    poll_tick true
        (⟨true, true, ⟨1, none, false⟩, fun _ => ⟨false, false, false, false⟩, 0,
          some 1, 2, []⟩ : EngState) =
      ⟨true, true, ⟨1, none, false⟩, fun _ => ⟨false, false, false, false⟩, 0,
        none, 2, []⟩ ∧
    poll_tick true
        (⟨false, true, ⟨1, none, true⟩, fun _ => ⟨false, false, false, false⟩, 0,
          some 1, 2, []⟩ : EngState) =
      ⟨false, true, ⟨1, none, true⟩, fun _ => ⟨false, false, false, false⟩, 0,
        some 1, 2, []⟩ ∧
    (poll_tick true
        (⟨false, true, ⟨1, none, false⟩, fun _ => ⟨false, false, false, false⟩, 0,
          some 1, 2, []⟩ : EngState)).nextFetch = 1 :=
  ⟨(c7_poll_tick_cases true _ 1 rfl).1 rfl,
   (c7_poll_tick_cases true _ 1 rfl).2.1 rfl rfl,
   (c7_poll_tick_cases true _ 1 rfl).2.2.1 rfl rfl rfl,
   ((c7_poll_tick_cases true _ 1 rfl).2.2.2 rfl rfl rfl).2.1⟩

/-- C6 counterexample: a command invocation whose spawn fails (`spawnv`
raises, e.g. the binary is missing) returns no cancellation handle
(`_run_shell_async` returns `None`), so the caller does not receive a
cancellation handle for every invocation; correspondingly `_poll_command`
stores no handle in the slot. -/
theorem c6_counterexample :
    (run_shell_async_launch false engInit).1 = none ∧
    (poll_command false engInit).slot.cancellable = none := by
  exact ⟨rfl, rfl⟩

theorem cancelFetchAt_idem (s : EngState) (i : Nat) :
    cancelFetchAt (cancelFetchAt s i) i = cancelFetchAt s i := by
  unfold cancelFetchAt
  simp [Function.update_idem, Function.update_same]

theorem cancel_fetch_completed_eq (s : EngState) (i j : Nat) :
    ((cancel_fetch i s).fetches j).completed = (s.fetches j).completed := by
  unfold cancel_fetch cancelFetchAt
  split
  · by_cases hj : j = i
    · subst hj
      simp [Function.update_same]
    · simp [Function.update_noteq hj]
  · rfl

/-- C6 (amended): every invocation that spawns successfully hands its
cancellation handle to the caller (spawn failure returns no handle — see the
counterexample); cancellation is idempotent (cancelling twice equals
cancelling once); cancelling an invocation before its completion suppresses
the output delivery of its completion; cancelling after natural completion
is an observable no-op (the pending-completion guard still fails, and log,
slot and timer are untouched); and no operation that was cancelled before
completing ever gets its output delivered to the application callback. -/
theorem c6_cancellation :
    (∀ s : EngState, (run_shell_async_launch true s).1 = some s.nextFetch) ∧
    (∀ (s : EngState) (i : Nat), cancel_fetch i (cancel_fetch i s) = cancel_fetch i s) ∧
    (∀ (s : EngState) (i : Nat) (out : Option String),
      i < s.nextFetch → (s.fetches i).cancelled = true → (s.fetches i).completed = false →
      (on_result i out s).outputs = s.outputs) ∧
    (∀ (s : EngState) (i : Nat) (out : Option String), (s.fetches i).completed = true →
      on_result i out (cancel_fetch i s) = cancel_fetch i s ∧
      (cancel_fetch i s).outputs = s.outputs ∧ (cancel_fetch i s).slot = s.slot ∧
      (cancel_fetch i s).armedTimer = s.armedTimer) ∧
    (∀ (evs : List Event) (i : Nat) (out : String),
      (i, out) ∈ (runEvents engInit evs).outputs →
      ((runEvents engInit evs).fetches i).earlyCancelled = false) := by
  refine ⟨fun s => rfl, ?_, ?_, ?_, ?_⟩
  · intro s i
    unfold cancel_fetch
    by_cases hi : i < s.nextFetch
    · rw [if_pos hi, if_pos (show i < (cancelFetchAt s i).nextFetch from hi),
        cancelFetchAt_idem]
    · rw [if_neg hi, if_neg hi]
  · intro s i out hilt hcanc hcomp
    unfold on_result
    rw [if_pos ⟨hilt, hcomp⟩]
    have hcv : completion_value i out s = none := by
      unfold completion_value
      rw [if_pos (Or.inr hcanc)]
    rw [hcv]
    split
    · rfl
    · rfl
  · intro s i out hcomp
    refine ⟨?_, ?_⟩
    · apply on_result_guard
      rintro ⟨hlt, hcp⟩
      rw [cancel_fetch_completed_eq, hcomp] at hcp
      cases hcp
    · unfold cancel_fetch
      split
      · exact ⟨rfl, rfl, rfl⟩
      · exact ⟨rfl, rfl, rfl⟩
  · intro evs i out hmem
    have h := engInv_runEvents engInit evs engInv_engInit
    exact (h.2.2.2.2 (i, out) hmem).2.2

/-- C6 witness: a successful spawn hands out the handle; an invocation
cancelled before completion delivers no output; an uncancelled completed
invocation is delivered and recorded as never early-cancelled. -/
theorem c6_cancellation_witness :
    (run_shell_async_launch true engInit).1 = some 0 ∧
    (on_result 0 (some "out")
        (runEvents engInit [Event.start true true, Event.cancelEv 0])).outputs =
      (runEvents engInit [Event.start true true, Event.cancelEv 0]).outputs ∧
    ((runEvents engInit
        [Event.start true true, Event.complete 0 (some "up")]).fetches 0).earlyCancelled
      = false :=
  ⟨c6_cancellation.1 engInit,
   c6_cancellation.2.2.1 (runEvents engInit [Event.start true true, Event.cancelEv 0]) 0
     (some "out") (by decide) (by decide) (by decide),
   c6_cancellation.2.2.2.2 [Event.start true true, Event.complete 0 (some "up")] 0 "up"
     (by decide)⟩

/-! Section: slider debounce (`SliderRow._on_value_changed` /
`SliderRow._execute_debounced_action` in `rows.py`).  Slider values are
rationals (the engine's logic does not depend on float rounding), GLib
timeout sources are numeric ids handed out by a counter. -/

/-- The constant `MIN_STEP_VALUE` from `rows.py` (`1e-9`). -/
def MIN_STEP_VALUE : ℚ := 1 / 1000000000

/-- Python `round()` on rationals: banker's rounding (round half to even). -/
def pyRound (x : ℚ) : ℤ :=
  let f := ⌊x⌋
  let r := x - f
  if r < 1 / 2 then f
  else if 1 / 2 < r then f + 1
  else if f % 2 = 0 then f else f + 1

/-- Python `int()` on rationals: truncation toward zero. -/
def pyInt (x : ℚ) : ℤ :=
  if 0 ≤ x then ⌊x⌋ else ⌈x⌉

/-- Python `cmd.replace("\x7bvalue\x7d", sub)`: substitute every occurrence
of the value placeholder, left to right, never rescanning substituted
text. -/
def replaceValue : List Char → String → List Char
  | '{' :: 'v' :: 'a' :: 'l' :: 'u' :: 'e' :: '}' :: rest, sub =>
      sub.data ++ replaceValue rest sub
  | c :: rest, sub => c :: replaceValue rest sub
  | [], _ => []

/-- Configuration snapshot of a `SliderRow`: bounds, step, the `debounce`
flag, and the `on_change` exec command when one is configured. -/
structure SliderCfg where
  min_val : ℚ
  max_val : ℚ
  step_val : ℚ
  debounce_enabled : Bool
  command : Option String
deriving Repr, DecidableEq

/-- Mutable state touched by the slider handlers: the widget-state fields
(`is_destroyed`, `debounce_source_id`), the handler-local guards
(`_slider_changing`, `_last_snapped`, `_pending_value`), the armed GLib
debounce timeout (`none` when no pending write is scheduled), a fresh-id
counter standing for GLib's source-id allocation, and the log of executed
write commands. -/
structure SliderState where
  is_destroyed : Bool
  slider_changing : Bool
  last_snapped : Option ℚ
  pending_value : Option ℚ
  debounce_source_id : Nat
  armedDebounce : Option Nat
  nextSource : Nat
  writes : List String
deriving Repr, DecidableEq

/-- Snapping performed by `_on_value_changed`: round to the step grid, then
clamp into the configured bounds. -/
def snapValue (cfg : SliderCfg) (val : ℚ) : ℚ :=
  max cfg.min_val (min (pyRound (val / cfg.step_val) * cfg.step_val) cfg.max_val)

/-- Embedding of `SliderRow._execute_debounced_action` (`rows.py`): bail out
when destroyed, clear the debounce source id, consume the pending value, and
when an exec action with a non-empty command is configured, execute the
command with the placeholder substituted by the truncated integer value. -/
def execute_debounced_action (cfg : SliderCfg) (s : SliderState) : SliderState :=
  if s.is_destroyed then s
  else
    let s1 := { s with debounce_source_id := 0 }
    match s1.pending_value with
    | none => { s1 with pending_value := none }
    | some v =>
        match cfg.command with
        | some cmd =>
            if cmd = "" then { s1 with pending_value := none }
            else
              { s1 with
                pending_value := none
                writes := s1.writes ++
                  [String.mk (replaceValue cmd.data (toString (pyInt v)))] }
        | none => { s1 with pending_value := none }

/-- The `_safe_source_remove(old_id)` performed on the debounce timer: a
positive id that is the armed debounce source is disarmed; anything else is
a no-op. -/
def safeRemoveDebounce (old_id : Nat) (armed : Option Nat) : Option Nat :=
  if 0 < old_id ∧ armed = some old_id then none else armed

/-- Embedding of `SliderRow._on_value_changed` (`rows.py`): ignore re-entrant
calls, snap and clamp the value, drop duplicates within `MIN_STEP_VALUE` of
the last snapped value, record the pending value; then either execute
immediately (debounce disabled), or — unless destroyed — arm a fresh
debounce timeout and remove the previously scheduled one. -/
def on_value_changed (cfg : SliderCfg) (val : ℚ) (s : SliderState) : SliderState :=
  if s.slider_changing then s
  else
    let snapped := snapValue cfg val
    if (match s.last_snapped with
        | some l => decide (|snapped - l| < MIN_STEP_VALUE)
        | none => false) then s
    else
      let s1 := { s with last_snapped := some snapped, pending_value := some snapped }
      if cfg.debounce_enabled = false then execute_debounced_action cfg s1
      else if s1.is_destroyed then s1
      else
        let old_id := s1.debounce_source_id
        let tid := s1.nextSource
        { s1 with
          debounce_source_id := tid
          nextSource := tid + 1
          armedDebounce := safeRemoveDebounce old_id (some tid) }

/-- Firing of the armed debounce timeout `tid`: a timer that is no longer
armed never fires; the armed one is removed by GLib (the callback returns
`SOURCE_REMOVE`) and runs `_execute_debounced_action`. -/
def debounce_fire (cfg : SliderCfg) (tid : Nat) (s : SliderState) : SliderState :=
  if s.armedDebounce = some tid then
    execute_debounced_action cfg { s with armedDebounce := none }
  else s

/-- One accepted input with debouncing on: the previous pending-write timer
is removed, and a fresh one is armed, with the snapped value pending. -/
theorem on_value_changed_accepted (cfg : SliderCfg) (val : ℚ)
    (ls pv : Option ℚ) (dsi : Nat) (arm : Option Nat) (ns : Nat) (w : List String)
    (hdeb : cfg.debounce_enabled = true) (hne : dsi ≠ ns)
    (hacc : ∀ l, ls = some l → MIN_STEP_VALUE ≤ |snapValue cfg val - l|) :
    on_value_changed cfg val ⟨false, false, ls, pv, dsi, arm, ns, w⟩ =
      ⟨false, false, some (snapValue cfg val), some (snapValue cfg val),
        ns, some ns, ns + 1, w⟩ := by
  rcases hls : ls with _ | l
  · simp [on_value_changed, hdeb, safeRemoveDebounce, hne]
    exact fun _ => fun h => hne h.symm
  · simp [on_value_changed, hdeb, safeRemoveDebounce, hne, not_lt.2 (hacc l hls)]
    exact fun _ => fun h => hne h.symm

/-- C4: for a debounce-enabled slider, feeding three accepted values inside
one debounce window (no timer fires between them) performs no write during
the burst, leaves only the latest timer armed, makes firing of the two
cancelled timers a no-op, and the armed timer's firing executes exactly one
write, with v3's snapped value substituted into the command template
(last-write-wins). -/
theorem c4_debounce_last_write_wins (cfg : SliderCfg)
    (ls pv : Option ℚ) (arm : Option Nat) (ns : Nat) (w : List String)
    (v1 v2 v3 : ℚ) (cmd : String)
    (hdeb : cfg.debounce_enabled = true)
    (hcmd : cfg.command = some cmd) (hcmd0 : cmd ≠ "")
    (hns : 0 < ns)
    (hacc1 : ∀ l, ls = some l → MIN_STEP_VALUE ≤ |snapValue cfg v1 - l|)
    (hacc2 : MIN_STEP_VALUE ≤ |snapValue cfg v2 - snapValue cfg v1|)
    (hacc3 : MIN_STEP_VALUE ≤ |snapValue cfg v3 - snapValue cfg v2|) :
    (on_value_changed cfg v1 ⟨false, false, ls, pv, 0, arm, ns, w⟩).writes = w ∧
    (on_value_changed cfg v2
      (on_value_changed cfg v1 ⟨false, false, ls, pv, 0, arm, ns, w⟩)).writes = w ∧
    (on_value_changed cfg v3 (on_value_changed cfg v2
      (on_value_changed cfg v1 ⟨false, false, ls, pv, 0, arm, ns, w⟩))).writes = w ∧
    (on_value_changed cfg v3 (on_value_changed cfg v2
      (on_value_changed cfg v1 ⟨false, false, ls, pv, 0, arm, ns, w⟩))).armedDebounce =
      some (ns + 2) ∧
    debounce_fire cfg ns (on_value_changed cfg v3 (on_value_changed cfg v2
        (on_value_changed cfg v1 ⟨false, false, ls, pv, 0, arm, ns, w⟩))) =
      on_value_changed cfg v3 (on_value_changed cfg v2
        (on_value_changed cfg v1 ⟨false, false, ls, pv, 0, arm, ns, w⟩)) ∧
    debounce_fire cfg (ns + 1) (on_value_changed cfg v3 (on_value_changed cfg v2
        (on_value_changed cfg v1 ⟨false, false, ls, pv, 0, arm, ns, w⟩))) =
      on_value_changed cfg v3 (on_value_changed cfg v2
        (on_value_changed cfg v1 ⟨false, false, ls, pv, 0, arm, ns, w⟩)) ∧
    (debounce_fire cfg (ns + 2) (on_value_changed cfg v3 (on_value_changed cfg v2
        (on_value_changed cfg v1 ⟨false, false, ls, pv, 0, arm, ns, w⟩)))).writes =
      w ++ [String.mk (replaceValue cmd.data (toString (pyInt (snapValue cfg v3))))] := by
  have e1 := on_value_changed_accepted cfg v1 ls pv 0 arm ns w hdeb (by omega) hacc1
  have e2 := on_value_changed_accepted cfg v2 (some (snapValue cfg v1))
    (some (snapValue cfg v1)) ns (some ns) (ns + 1) w hdeb (by omega)
    (fun l hl => by cases hl; exact hacc2)
  have e3 := on_value_changed_accepted cfg v3 (some (snapValue cfg v2))
    (some (snapValue cfg v2)) (ns + 1) (some (ns + 1)) (ns + 1 + 1) w hdeb (by omega)
    (fun l hl => by cases hl; exact hacc3)
  rw [e1, e2, e3]
  refine ⟨rfl, rfl, rfl, rfl, ?_, ?_, ?_⟩
  · rw [debounce_fire, if_neg (by simp only [Option.some.injEq]; omega)]
  · rw [debounce_fire, if_neg (by simp only [Option.some.injEq]; omega)]
  · rw [debounce_fire, if_pos rfl]
    simp [execute_debounced_action, hcmd, hcmd0]

attribute [local semireducible] Rat.add Rat.sub Rat.mul Rat.inv in
theorem c4_debounce_last_write_wins_witness :
    (debounce_fire ⟨0, 100, 1, true, some "setvol {value}"⟩ 3
      (on_value_changed ⟨0, 100, 1, true, some "setvol {value}"⟩ 30
        (on_value_changed ⟨0, 100, 1, true, some "setvol {value}"⟩ 20
          (on_value_changed ⟨0, 100, 1, true, some "setvol {value}"⟩ 10
            ⟨false, false, none, none, 0, none, 1, []⟩)))).writes = ["setvol 30"] := by
  rw [(c4_debounce_last_write_wins ⟨0, 100, 1, true, some "setvol {value}"⟩
    none none none 1 [] 10 20 30 "setvol {value}"
    rfl rfl (by decide) (by decide)
    (fun l hl => by cases hl) (by decide) (by decide)).2.2.2.2.2.2]
  decide

/-! Section: settings persistence (`_validate_settings_path`, `save_setting`,
`load_setting`, `_parse_bool` in `utility.py`).  Paths are modelled as lists
of components below the filesystem root; the settings directory is the
already-resolved `resolved_base` of `_ResolvedDirectoryCache`.  `.resolve()`
is modelled lexically, i.e. assuming no symlink inside the settings tree. -/

/-- Split a character list on slashes into path components (the component
decomposition `pathlib` applies to `resolved_base / key`). -/
def splitSlash : List Char → List Char → List (List Char)
  | [], acc => [acc.reverse]
  | c :: cs, acc =>
      if c = '/' then acc.reverse :: splitSlash cs []
      else splitSlash cs (c :: acc)

/-- Lexical model of `(resolved_base / key).resolve()`: join the key onto the
resolved base and normalise, skipping empty and `.` components and letting
`..` pop one component (popping above the root stays at the root, as on
POSIX). -/
def resolveUnder (base : List String) (key : String) : List String :=
  (splitSlash key.data []).foldl
    (fun acc c =>
      if c = [] ∨ c = ['.'] then acc
      else if c = ['.', '.'] then acc.dropLast
      else acc ++ [String.mk c])
    base

/-- Embedding of `_validate_settings_path` (`utility.py`): reject an empty
key, a key containing a null byte, a key beginning with `/` or `..`, and a
key whose resolved candidate path is not contained in the resolved settings
directory (`candidate.relative_to(resolved_base)` succeeding exactly when
`resolved_base` is a componentwise prefix of `candidate`). -/
def validate_settings_path (base : List String) (key : String) : Option (List String) :=
  if key = "" then none
  else if key.data.contains (Char.ofNat 0) then none
  else if key.data.take 1 = ['/'] ∨ key.data.take 2 = ['.', '.'] then none
  else if (resolveUnder base key).take base.length = base then some (resolveUnder base key)
  else none

/-- Python `str.lower()` (ASCII). -/
def pyLower (s : String) : String :=
  String.mk (s.data.map Char.toLower)

/-- Digit-string parser of Python `int(str)`: a nonempty digit run in which
a single underscore may separate two digits.  The `Bool` argument records
whether the previous character was a digit. -/
def pyDigits : List Char → Bool → Nat → Option Nat
  | [], last, acc => if last then some acc else none
  | c :: cs, last, acc =>
      if c.isDigit then pyDigits cs true (acc * 10 + (c.toNat - 48))
      else if c = '_' && last then pyDigits cs false acc
      else none

/-- Model of Python `int(value)` on strings (ASCII): surrounding whitespace
is stripped, an optional sign precedes the digits. -/
def pyParseInt (s : String) : Option Int :=
  match (pyStrip s).data with
  | '-' :: rest => (pyDigits rest false 0).map (fun n => -(n : Int))
  | '+' :: rest => (pyDigits rest false 0).map (fun n => (n : Int))
  | t => (pyDigits t false 0).map (fun n => (n : Int))

/-- Embedding of `_parse_bool` (`utility.py`): recognise the common boolean
strings on the lowered, stripped value, fall back to an integer parse of the
original value, and XOR with the inversion flag. -/
def parse_bool (value : String) (is_inversed : Bool) : Bool :=
  let lowered := pyStrip (pyLower value)
  let result :=
    if ["true", "yes", "on", "1"].contains lowered then true
    else if ["false", "no", "off", "0", ""].contains lowered then false
    else
      match pyParseInt value with
      | some n => n != 0
      | none => false
  xor result is_inversed

/-- Python `str(bool)`: `"True"` or `"False"`. -/
def pyStrBool (b : Bool) : String :=
  if b then "True" else "False"

/-- The settings file system as `save_setting` and `load_setting` touch it:
the contents of the regular files by resolved path, and which paths are
directories.  In every real store the settings directory and its ancestors
are directories (`_ResolvedDirectoryCache.get` creates the directory before
resolving it). -/
structure SettingsFS where
  files : List String → Option String
  dirs : List String → Bool

/-- All prefixes of a path: the path of each ancestor and the path
itself. -/
def prefixesOf (p : List String) : List (List String) :=
  (List.range (p.length + 1)).map (fun i => p.take i)

/-- The temporary file name `tempfile.mkstemp` creates next to the target: a
leading dot, the target's final name, and a `.tmp` suffix.  The random
middle part of the real name is dropped, so the model's temp name is
deterministic; aside from mkstemp's freshness guarantee this changes nothing
the theorems look at. -/
def tmpNameOf (target : List String) : String :=
  "." ++ target.getLastD "" ++ ".tmp"

/-- Does `target.parent.mkdir(parents=True, exist_ok=True)` raise?  It does
(`FileExistsError` or `NotADirectoryError`, both `OSError`) exactly when an
existing regular file occupies the parent path or one of its ancestors, and
then no directory has been created. -/
def mkdir_blocked (fs : SettingsFS) (parent : List String) : Bool :=
  (prefixesOf parent).any (fun q => (fs.files q).isSome)

/-- The outcome of one `save_setting` call: the returned success flag, the
file system afterwards, and the paths the call wrote or created — the
temporary file, and the target when the rename succeeded. -/
structure SaveResult where
  ok : Bool
  fs : SettingsFS
  touched : List (List String)

/-- Embedding of `save_setting` (`utility.py`) at boolean values (the type
the claims exercise): validate the key, serialise the value, ensure the
target's parent directory exists (raising like the code when a regular file
is in the way), create the temporary file next to the target with
`mkstemp`, write the contents, and rename it onto the target.  The rename
raises `OSError` when the target is an existing directory — as it is when
the key resolves to the settings directory itself — in which case the
`finally` block unlinks the temporary file and `False` is returned.  The
fsync calls have no observable effect here; marking an already existing
ancestor as a directory is a no-op. -/
def save_setting (base : List String) (fs : SettingsFS) (key : String)
    (value : Bool) (as_int : Bool) : SaveResult :=
  match validate_settings_path base key with
  | none => ⟨false, fs, []⟩
  | some target =>
      let content := if as_int then (if value then "1" else "0") else pyStrBool value
      let parent := target.dropLast
      if mkdir_blocked fs parent then ⟨false, fs, []⟩
      else
        let dirs1 := fun q => fs.dirs q || decide (parent.take q.length = q)
        let temp := parent ++ [tmpNameOf target]
        let files1 := Function.update fs.files temp (some content)
        if fs.dirs target then
          ⟨false, ⟨Function.update files1 temp none, dirs1⟩, [temp]⟩
        else
          ⟨true,
           ⟨Function.update (Function.update files1 temp none) target (some content), dirs1⟩,
           [temp, target]⟩

/-- Embedding of `load_setting` (`utility.py`) at a boolean default:
validate the key; return the default when validation fails, when
`read_text` raises an `OSError` (`IsADirectoryError` when the target is a
directory, as for a key resolving to the settings directory itself), or
when the file is missing; otherwise parse the stripped contents as a
boolean (the `case bool()` arm of the match on the default's type). -/
def load_setting (base : List String) (fs : SettingsFS) (key : String)
    (default : Bool) (is_inversed : Bool) : Bool :=
  match validate_settings_path base key with
  | none => default
  | some target =>
      if fs.dirs target then default
      else
        match fs.files target with
        | none => default
        | some raw => parse_bool (pyStrip raw) is_inversed

/-- A path that passes validation lies inside (or is) the settings
directory. -/
theorem validate_some_prefix (base : List String) (key : String) (p : List String)
    (hp : validate_settings_path base key = some p) : p.take base.length = base := by
  unfold validate_settings_path at hp
  split at hp
  · exact absurd hp (by simp)
  · split at hp
    · exact absurd hp (by simp)
    · split at hp
      · exact absurd hp (by simp)
      · split at hp
        · cases hp
          assumption
        · exact absurd hp (by simp)

theorem dropLast_take_base (base target : List String)
    (hpre : target.take base.length = base) (hlt : base.length < target.length) :
    (target.dropLast).take base.length = base := by
  rw [List.dropLast_eq_take, List.take_take, min_eq_left (by omega)]
  exact hpre

theorem concat_take_base (base parent : List String) (x : String)
    (hlen : base.length ≤ parent.length) (hpre : parent.take base.length = base) :
    (parent ++ [x]).take base.length = base := by
  rw [List.take_append_of_le_length hlen]
  exact hpre

/-- The temporary file's path never equals the path it was derived from (the
final name differs: five characters are added around it). -/
theorem tmp_concat_ne_self (l : List String) :
    l.dropLast ++ [tmpNameOf l] ≠ l := by
  rcases l.eq_nil_or_concat with rfl | ⟨ys, y, hys⟩
  · simp
  · subst hys
    rw [List.concat_eq_append, List.dropLast_concat]
    intro heq
    have hy : tmpNameOf (ys ++ [y]) = y := by
      have h2 := congrArg (List.drop ys.length) heq
      simpa using h2
    have hlast : (ys ++ [y]).getLastD "" = y := by simp
    unfold tmpNameOf at hy
    rw [hlast] at hy
    have hl := congrArg String.length hy
    rw [String.length_append, String.length_append] at hl
    have h1 : ("." : String).length = 1 := rfl
    have h2 : (".tmp" : String).length = 4 := rfl
    omega

/-- The invalid-key predicate of claim C10: empty key, embedded null byte, a
key beginning with `/` or `..`, or a key whose resolved path lies outside
the settings directory. -/
def badSettingsKey (base : List String) (key : String) : Prop :=
  key = "" ∨ key.data.contains (Char.ofNat 0) = true ∨ key.data.take 1 = ['/'] ∨
  key.data.take 2 = ['.', '.'] ∨ (resolveUnder base key).take base.length ≠ base

instance (base : List String) (key : String) : Decidable (badSettingsKey base key) := by
  unfold badSettingsKey
  infer_instance

/-- Validation fails exactly on the bad keys of claim C10. -/
theorem validate_none_iff_bad (base : List String) (key : String) :
    validate_settings_path base key = none ↔ badSettingsKey base key := by
  unfold validate_settings_path badSettingsKey
  repeat' split
  all_goals simp_all
  all_goals tauto

/-- A concrete resolved settings directory, for the counterexamples. -/
def demoBase : List String :=
  ["home", "u", "dusky", "settings"]

/-- A concrete store: no regular files, and exactly the settings directory
and its ancestors exist as directories — the state `_ResolvedDirectoryCache`
guarantees. -/
def demoFS : SettingsFS :=
  ⟨fun _ => none, fun q => decide (demoBase.take q.length = q)⟩

/-- C9 counterexample: the key `.` passes validation (its resolved path is
the settings directory itself), yet `save_setting` returns `False` — the
rename of the temporary file onto the settings directory raises `OSError` —
and the subsequent `load_setting` with default `false` returns `false`, not
`true` as the claim demands for every valid key. -/
theorem c9_counterexample :
    validate_settings_path demoBase "." = some demoBase ∧
    (save_setting demoBase demoFS "." true false).ok = false ∧
    load_setting demoBase (save_setting demoBase demoFS "." true false).fs "." false false
      = false := by
  decide

/-- C9 (amended): for every valid key whose resolved path is a proper
descendant of the settings directory, on a store where no existing
directory occupies the target and no existing regular file occupies the
target's parent or an ancestor of it (so the target can be created as a
regular file — the normal situation for a plain settings key),
`save_setting key true` succeeds and a subsequent
`load_setting key (default := false)` returns `true`; with the inversion
flag set the same load returns `false`.  Stated for both serialisation
modes (`as_int` false and true). -/
theorem c9_settings_roundtrip (base : List String) (fs : SettingsFS) (key : String)
    (as_int : Bool) (target : List String)
    (hval : validate_settings_path base key = some target)
    (hproper : base.length < target.length)
    (hnodir : fs.dirs target = false)
    (hnoblock : ∀ q ∈ prefixesOf target.dropLast, fs.files q = none) :
    (save_setting base fs key true as_int).ok = true ∧
    load_setting base (save_setting base fs key true as_int).fs key false false = true ∧
    load_setting base (save_setting base fs key true as_int).fs key false true = false := by
  have hblock : mkdir_blocked fs target.dropLast = false := by
    unfold mkdir_blocked
    rw [List.any_eq_false]
    intro q hq
    rw [hnoblock q hq]
    exact Bool.false_ne_true
  have hparent_ne : ¬ (target.dropLast).take target.length = target := by
    intro hh
    have hlth := congrArg List.length hh
    rw [List.length_take, List.length_dropLast, min_eq_right (by omega)] at hlth
    omega
  have hb1 : ¬ mkdir_blocked fs target.dropLast = true := by
    rw [hblock]
    exact Bool.false_ne_true
  have hb2 : ¬ fs.dirs target = true := by
    rw [hnodir]
    exact Bool.false_ne_true
  have hdirs1 : ¬ (fs.dirs target
      || decide ((target.dropLast).take target.length = target)) = true := by
    rw [hnodir, Bool.false_or]
    simp [hparent_ne]
  have hsave : save_setting base fs key true as_int =
      ⟨true,
       ⟨Function.update (Function.update (Function.update fs.files
           (target.dropLast ++ [tmpNameOf target])
           (some (if as_int then "1" else pyStrBool true)))
           (target.dropLast ++ [tmpNameOf target]) none)
         target (some (if as_int then "1" else pyStrBool true)),
        fun q => fs.dirs q || decide ((target.dropLast).take q.length = q)⟩,
       [target.dropLast ++ [tmpNameOf target], target]⟩ := by
    simp only [save_setting, hval]
    rw [if_neg hb1, if_neg hb2]
    rcases as_int with _ | _ <;> rfl
  refine ⟨?_, ?_, ?_⟩
  · rw [hsave]
  · simp only [load_setting, hsave, hval]
    rw [if_neg hdirs1]
    simp only [Function.update_same]
    rcases as_int with _ | _ <;> decide
  · simp only [load_setting, hsave, hval]
    rw [if_neg hdirs1]
    simp only [Function.update_same]
    rcases as_int with _ | _ <;> decide

/-- C9 witness: round trip at a concrete key, proper descendant of a
concrete settings directory, in a store with no obstruction. -/
theorem c9_settings_roundtrip_witness :
    (save_setting ["cfg", "dusky", "settings"] ⟨fun _ => none, fun _ => false⟩
      "wifi_on" true false).ok = true ∧
    load_setting ["cfg", "dusky", "settings"]
      (save_setting ["cfg", "dusky", "settings"] ⟨fun _ => none, fun _ => false⟩
        "wifi_on" true false).fs
      "wifi_on" false false = true ∧
    load_setting ["cfg", "dusky", "settings"]
      (save_setting ["cfg", "dusky", "settings"] ⟨fun _ => none, fun _ => false⟩
        "wifi_on" true false).fs
      "wifi_on" false true = false :=
  c9_settings_roundtrip ["cfg", "dusky", "settings"] ⟨fun _ => none, fun _ => false⟩
    "wifi_on" false ["cfg", "dusky", "settings", "wifi_on"]
    (by decide) (by decide) rfl (by decide)

/-- C10 counterexample: at the validated key `.` — resolved path: the
settings directory itself — `save_setting` creates its temporary file in
the settings directory's parent, a filesystem path outside the settings
directory, before the rename onto the directory fails.  This falsifies the
claim's clause that no operation ever touches a filesystem path outside the
settings directory. -/
theorem c10_counterexample :
    validate_settings_path demoBase "." = some demoBase ∧
    (save_setting demoBase demoFS "." true false).touched =
      [["home", "u", "dusky", ".settings.tmp"]] ∧
    (["home", "u", "dusky", ".settings.tmp"] : List String).take demoBase.length ≠ demoBase := by
  decide

/-- C10 (amended): for every bad key (empty, containing a null byte,
beginning with `/` or `..`, or resolving outside the settings directory)
`save_setting` returns failure, touches nothing and leaves the store
untouched, and `load_setting` returns the supplied default, whatever the
store contents; every path that passes validation lies inside the settings
directory; for every key whose resolved path is a proper descendant of the
settings directory, everything a save touches lies inside the settings
directory and no file outside it changes; only a key resolving to the
settings directory itself has its temporary file created in the settings
directory's parent — and that save fails without modifying the contents of
any file in the settings directory. -/
theorem c10_settings_path_safety :
    (∀ base fs key value as_int default inv, badSettingsKey base key →
      save_setting base fs key value as_int = ⟨false, fs, []⟩ ∧
      load_setting base fs key default inv = default) ∧
    (∀ base key p, validate_settings_path base key = some p →
      p.take base.length = base) ∧
    (∀ base fs key value as_int target, validate_settings_path base key = some target →
      base.length < target.length →
      (∀ q ∈ (save_setting base fs key value as_int).touched,
        q.take base.length = base) ∧
      (∀ q, q.take base.length ≠ base →
        (save_setting base fs key value as_int).fs.files q = fs.files q)) ∧
    (∀ base fs key value as_int, validate_settings_path base key = some base →
      base ≠ [] → fs.dirs base = true →
      (save_setting base fs key value as_int).ok = false ∧
      (∀ q, q.take base.length = base →
        (save_setting base fs key value as_int).fs.files q = fs.files q)) := by
  refine ⟨fun base fs key value as_int default inv hbad => ?_,
    fun base key p hp => validate_some_prefix base key p hp,
    fun base fs key value as_int target hval hproper => ?_,
    fun base fs key value as_int hval hbne hdir => ?_⟩
  · have hv : validate_settings_path base key = none :=
      (validate_none_iff_bad base key).2 hbad
    constructor
    · simp [save_setting, hv]
    · simp [load_setting, hv]
  · have hpre := validate_some_prefix base key target hval
    have hparpre : (target.dropLast).take base.length = base :=
      dropLast_take_base base target hpre hproper
    have htempin : ((target.dropLast) ++ [tmpNameOf target]).take base.length = base :=
      concat_take_base base target.dropLast (tmpNameOf target)
        (by rw [List.length_dropLast]; omega) hparpre
    simp only [save_setting, hval]
    by_cases hbl : mkdir_blocked fs target.dropLast = true
    · rw [if_pos hbl]
      exact ⟨by simp, fun q hq => rfl⟩
    · rw [if_neg hbl]
      by_cases hdt : fs.dirs target = true
      · rw [if_pos hdt]
        refine ⟨?_, ?_⟩
        · intro q hq
          rw [List.mem_singleton] at hq
          rw [hq]
          exact htempin
        · intro q hq
          have hqtemp : q ≠ target.dropLast ++ [tmpNameOf target] := by
            intro hh
            exact hq (hh ▸ htempin)
          show Function.update
              (Function.update fs.files (target.dropLast ++ [tmpNameOf target]) _)
              (target.dropLast ++ [tmpNameOf target]) none q = fs.files q
          rw [Function.update_noteq hqtemp, Function.update_noteq hqtemp]
      · rw [if_neg hdt]
        refine ⟨?_, ?_⟩
        · intro q hq
          rw [List.mem_cons, List.mem_singleton] at hq
          rcases hq with hq | hq
          · rw [hq]
            exact htempin
          · rw [hq]
            exact hpre
        · intro q hq
          have hqtemp : q ≠ target.dropLast ++ [tmpNameOf target] := by
            intro hh
            exact hq (hh ▸ htempin)
          have hqtar : q ≠ target := by
            intro hh
            exact hq (hh ▸ hpre)
          show Function.update (Function.update
              (Function.update fs.files (target.dropLast ++ [tmpNameOf target]) _)
              (target.dropLast ++ [tmpNameOf target]) none) target _ q = fs.files q
          rw [Function.update_noteq hqtar, Function.update_noteq hqtemp,
            Function.update_noteq hqtemp]
  · have hlen1 : 0 < base.length := List.length_pos.2 hbne
    have htempne : base.dropLast ++ [tmpNameOf base] ≠ base := tmp_concat_ne_self base
    simp only [save_setting, hval]
    by_cases hbl : mkdir_blocked fs base.dropLast = true
    · rw [if_pos hbl]
      exact ⟨rfl, fun q hq => rfl⟩
    · rw [if_neg hbl, if_pos hdir]
      refine ⟨rfl, ?_⟩
      intro q hq
      have hqtemp : q ≠ base.dropLast ++ [tmpNameOf base] := by
        intro hh
        apply htempne
        have hlen2 : (base.dropLast ++ [tmpNameOf base]).length = base.length := by
          rw [List.length_append, List.length_dropLast]
          simp
          omega
        have := hq
        rw [hh] at this
        rw [show (base.dropLast ++ [tmpNameOf base]).take base.length
            = base.dropLast ++ [tmpNameOf base] from by
          rw [← hlen2]
          exact List.take_length _] at this
        exact this
      show Function.update
          (Function.update fs.files (base.dropLast ++ [tmpNameOf base]) _)
          (base.dropLast ++ [tmpNameOf base]) none q = fs.files q
      rw [Function.update_noteq hqtemp, Function.update_noteq hqtemp]

/-- C10 witness: a traversal key is rejected with nothing touched, a valid
key resolves inside the settings directory, a proper-descendant save
touches only inside paths and changes no outside file, and a save at the
settings directory itself fails without modifying any settings file. -/
theorem c10_settings_path_safety_witness :
    (save_setting ["s"] ⟨fun _ => none, fun _ => false⟩ "../etc/passwd" true false =
      ⟨false, ⟨fun _ => none, fun _ => false⟩, []⟩ ∧
     load_setting ["s"] ⟨fun _ => none, fun _ => false⟩ "../etc/passwd" true false = true) ∧
    (["s", "k"] : List String).take 1 = ["s"] ∧
    (["s", ".k.tmp"] : List String).take 1 = ["s"] ∧
    (save_setting ["s"] ⟨fun _ => none, fun _ => false⟩ "k" true false).fs.files ["zzz"]
      = none ∧
    (save_setting demoBase demoFS "." true false).ok = false ∧
    (save_setting demoBase demoFS "." true false).fs.files demoBase = none :=
  ⟨c10_settings_path_safety.1 ["s"] ⟨fun _ => none, fun _ => false⟩ "../etc/passwd"
      true false true false (by decide),
   c10_settings_path_safety.2.1 ["s"] "k" ["s", "k"] (by decide),
   (c10_settings_path_safety.2.2.1 ["s"] ⟨fun _ => none, fun _ => false⟩ "k" true false
      ["s", "k"] (by decide) (by decide)).1 ["s", ".k.tmp"] (by decide),
   (c10_settings_path_safety.2.2.1 ["s"] ⟨fun _ => none, fun _ => false⟩ "k" true false
      ["s", "k"] (by decide) (by decide)).2 ["zzz"] (by decide),
   (c10_settings_path_safety.2.2.2 demoBase demoFS "." true false (by decide) (by decide)
      (by decide)).1,
   (c10_settings_path_safety.2.2.2 demoBase demoFS "." true false (by decide) (by decide)
      (by decide)).2 demoBase (by decide)⟩

end Dusky
